import Mathlib

/-!
Verification of the checkout/transaction core of the retail-core-api
repository (Go).  The Go code is shallowly embedded: the products,
transactions and transaction_details tables become lists of rows, the
repository functions become pure functions threading an explicit `Store`,
and SQL errors become an explicit error type.  Go `int` values are
modelled as `Int` (the claims under study do not concern machine-word
overflow).
-/

namespace RetailCore

/-- A row of the `products` table (the fields read by the checkout engine:
`SELECT name, price, stock FROM products WHERE id = $1`). -/
structure ProductRow where
  id : Int
  name : String
  price : Int
  stock : Int
deriving Repr, DecidableEq

/-- `models.CheckoutItem`: one entry of a cart. -/
structure CheckoutItem where
  productID : Int
  quantity : Int
deriving Repr, DecidableEq

/-- `models.TransactionDetail` as returned to the caller. -/
structure TransactionDetail where
  id : Int
  transactionID : Int
  productID : Int
  productName : String
  quantity : Int
  subtotal : Int
deriving Repr, DecidableEq

/-- `models.Transaction` as returned to the caller.  `createdAt` models the
Go `time.Time` field at date granularity; the Go zero time is `0`. -/
structure Transaction where
  id : Int
  totalAmount : Int
  createdAt : Int
  details : List TransactionDetail
deriving Repr, DecidableEq

/-- A row of the `transactions` table (migration.go): id, total_amount,
created_at (assigned by the database: `DEFAULT CURRENT_TIMESTAMP`). -/
structure TransRow where
  id : Int
  totalAmount : Int
  createdAt : Int
deriving Repr, DecidableEq

/-- A row of the `transaction_details` table.  Per migration.go the columns
are exactly id, transaction_id, product_id, quantity, subtotal; the table
has no product_name column. -/
structure DetailRow where
  id : Int
  transactionID : Int
  productID : Int
  quantity : Int
  subtotal : Int
deriving Repr, DecidableEq

/-- `models.BestSellingProduct`. -/
structure BestSellingProduct where
  name : String
  qtySold : Int
deriving Repr, DecidableEq

/-- `models.SalesReport`. -/
structure SalesReport where
  totalRevenue : Int
  totalTransactions : Int
  bestSellingProduct : Option BestSellingProduct
deriving Repr, DecidableEq

/-- The errors produced by the service and repository layers.  In Go these
are `error` values built with `errors.New` / `fmt.Errorf`; the constructor
arguments are the format arguments of the corresponding message. -/
inductive RepoError where
  | productNotFound (productID : Int)
  | insufficientStock (name : String) (available requested : Int)
  | validationError (msg : String)
  | storageError (msg : String)
deriving Repr, DecidableEq

/-- The database state visible to the transaction repository: the three
tables, the SERIAL counters, and the current date (`CURRENT_DATE` /
the date of `CURRENT_TIMESTAMP`). -/
structure Store where
  products : List ProductRow
  transactions : List TransRow
  transactionDetails : List DetailRow
  nextTransactionID : Int
  nextDetailID : Int
  today : Int
deriving Repr, DecidableEq

/-- `SELECT ... FROM products WHERE id = $1` (id is the primary key, so the
first matching row). -/
def findProduct (ps : List ProductRow) (pid : Int) : Option ProductRow :=
  ps.find? (fun p => p.id = pid)

/-- `UPDATE products SET stock = stock - $1 WHERE id = $2`. -/
def updateStock (ps : List ProductRow) (pid qty : Int) : List ProductRow :=
  ps.map (fun p => if p.id = pid then { p with stock := p.stock - qty } else p)

/-- The per-item loop of `transactionRepository.CreateTransaction`: look the
product up, check stock, accumulate the subtotal, deduct stock, and record a
pending detail line (ID and transaction ID still zero, as in the Go code).
Returns the updated products table, the accumulated total and the pending
details, or the first error encountered. -/
def processItems : List CheckoutItem → List ProductRow →
    Except RepoError (List ProductRow × Int × List TransactionDetail)
  | [], ps => .ok (ps, 0, [])
  | item :: rest, ps =>
    match findProduct ps item.productID with
    | none => .error (.productNotFound item.productID)
    | some p =>
      if p.stock < item.quantity then
        .error (.insufficientStock p.name p.stock item.quantity)
      else
        match processItems rest (updateStock ps item.productID item.quantity) with
        | .error e => .error e
        | .ok (psFin, tot, dets) =>
          .ok (psFin, p.price * item.quantity + tot,
            { id := 0, transactionID := 0, productID := item.productID,
              productName := p.name, quantity := item.quantity,
              subtotal := p.price * item.quantity } :: dets)

/-- The detail-insertion loop: each pending detail gets the new transaction's
ID and a fresh SERIAL id from `RETURNING id`. -/
def assignIDs (tid : Int) : List TransactionDetail → Int → List TransactionDetail
  | [], _ => []
  | d :: rest, nid =>
    { d with transactionID := tid, id := nid } :: assignIDs tid rest (nid + 1)

/-- The columns actually written by
`INSERT INTO transaction_details (transaction_id, product_id, quantity, subtotal)`. -/
def persistRow (d : TransactionDetail) : DetailRow :=
  { id := d.id, transactionID := d.transactionID, productID := d.productID,
    quantity := d.quantity, subtotal := d.subtotal }

/-- `transactionRepository.CreateTransaction`.  On any error the deferred
`tx.Rollback()` discards all effects, so the store comes back unchanged; on
success the commit installs the updated products table, the new transaction
row (with its database-assigned `created_at`) and the new detail rows.
The returned `Transaction` is built in Go code from `transactionID`,
`totalAmount` and `details` only: its CreatedAt field keeps the zero value. -/
def createTransaction (items : List CheckoutItem) (s : Store) :
    Except RepoError Transaction × Store :=
  match processItems items s.products with
  | .error e => (.error e, s)
  | .ok (psFin, tot, dets) =>
    let tid := s.nextTransactionID
    let assigned := assignIDs tid dets s.nextDetailID
    (.ok { id := tid, totalAmount := tot, createdAt := 0, details := assigned },
     { products := psFin,
       transactions := s.transactions ++
         [{ id := tid, totalAmount := tot, createdAt := s.today }],
       transactionDetails := s.transactionDetails ++ assigned.map persistRow,
       nextTransactionID := tid + 1,
       nextDetailID := s.nextDetailID + assigned.length,
       today := s.today })

/-- The per-item validation loop of `transactionService.Checkout`. -/
def validateItems : List CheckoutItem → Option RepoError
  | [] => none
  | item :: rest =>
    if item.productID ≤ 0 then some (.validationError "invalid product ID")
    else if item.quantity ≤ 0 then
      some (.validationError "quantity must be greater than 0")
    else validateItems rest

/-- `transactionService.Checkout`: reject empty carts and non-positive
ids/quantities before touching the store, then delegate to the repository. -/
def checkout (items : List CheckoutItem) (s : Store) :
    Except RepoError Transaction × Store :=
  if items = [] then
    (.error (.validationError "checkout items cannot be empty"), s)
  else
    match validateItems items with
    | some e => (.error e, s)
    | none => createTransaction items s

/-- Specification-side predicate for the claims: each cart entry references
an existing product and requests no more than the stock available at its
turn (with earlier entries of the same cart already deducted). -/
def sufficientStock : List CheckoutItem → List ProductRow → Bool
  | [], _ => true
  | item :: rest, ps =>
    match findProduct ps item.productID with
    | none => false
    | some p =>
      decide (item.quantity ≤ p.stock) &&
        sufficientStock rest (updateStock ps item.productID item.quantity)

/-- The stock recorded for product `pid` (of the first row with that id). -/
def stockOf (ps : List ProductRow) (pid : Int) : Option Int :=
  (findProduct ps pid).map (fun p => p.stock)

/-- The price recorded for product `pid`. -/
def priceOf (ps : List ProductRow) (pid : Int) : Option Int :=
  (findProduct ps pid).map (fun p => p.price)

/-- The name recorded for product `pid`. -/
def nameOf (ps : List ProductRow) (pid : Int) : Option String :=
  (findProduct ps pid).map (fun p => p.name)

/-- Total quantity a cart requests for product `pid` across all entries. -/
def totalQty (items : List CheckoutItem) (pid : Int) : Int :=
  ((items.filter (fun it => it.productID = pid)).map (fun it => it.quantity)).sum

instance {ε α : Type} [DecidableEq ε] [DecidableEq α] :
    DecidableEq (Except ε α) := fun x y =>
  match x, y with
  | .ok a, .ok b =>
    if h : a = b then .isTrue (by rw [h])
    else .isFalse (by intro hc; cases hc; exact h rfl)
  | .error a, .error b =>
    if h : a = b then .isTrue (by rw [h])
    else .isFalse (by intro hc; cases hc; exact h rfl)
  | .ok _, .error _ => .isFalse (by intro hc; cases hc)
  | .error _, .ok _ => .isFalse (by intro hc; cases hc)

/-- Split a character list at every dash. -/
def splitDash : List Char → List (List Char)
  | [] => [[]]
  | c :: rest =>
    match splitDash rest, decide (c = '-') with
    | r, true => [] :: r
    | [], false => [[c]]
    | g :: gs, false => (c :: g) :: gs

/-- Read a non-empty all-digit character list as a number. -/
def parseNatAux : List Char → Nat → Option Nat
  | [], acc => some acc
  | c :: rest, acc =>
    if '0' ≤ c ∧ c ≤ '9' then parseNatAux rest (acc * 10 + (c.toNat - 48))
    else none

/-- Read a non-empty all-digit character list as a number. -/
def parseNatDigits : List Char → Option Nat
  | [] => none
  | cs => parseNatAux cs 0

/-- The `$1::date` cast the report queries apply to their string parameters:
parse a `YYYY-MM-DD` calendar date into a single integer code whose order
agrees with calendar order. `none` models the cast failing. -/
def parseDate (str : String) : Option Int :=
  match splitDash str.toList with
  | [y, m, d] =>
    match parseNatDigits y, parseNatDigits m, parseNatDigits d with
    | some yn, some mn, some dn =>
      if 1 ≤ mn ∧ mn ≤ 12 ∧ 1 ≤ dn ∧ dn ≤ 31 then
        some ((yn : Int) * 10000 + (mn : Int) * 100 + (dn : Int))
      else none
    | _, _, _ => none
  | _ => none

/-- Whether detail row `d` joins (`JOIN transactions t ON
td.transaction_id = t.id`) to a transaction satisfying the report's WHERE
scope.  `t.id` is the primary key, so the first matching row. -/
def inScopeDetail (s : Store) (scope : TransRow → Bool) (d : DetailRow) : Bool :=
  match s.transactions.find? (fun t => t.id = d.transactionID) with
  | some t => scope t
  | none => false

/-- The joined row set of the best-seller query:
`FROM transaction_details td JOIN transactions t ... JOIN products p ON
td.product_id = p.id WHERE <scope>`. -/
def joinedRows (s : Store) (scope : TransRow → Bool) :
    List (DetailRow × ProductRow) :=
  s.transactionDetails.filterMap (fun d =>
    if inScopeDetail s scope d then
      (findProduct s.products d.productID).map (fun p => (d, p))
    else none)

/-- The `GROUP BY p.id, p.name` keys of the joined rows. -/
def groupKeys (rows : List (DetailRow × ProductRow)) : List (Int × String) :=
  (rows.map (fun r => (r.2.id, r.2.name))).dedup

/-- `SUM(td.quantity)` for one group key. -/
def qtyForKey (rows : List (DetailRow × ProductRow)) (key : Int × String) : Int :=
  ((rows.filter (fun r => decide (r.2.id = key.1) && decide (r.2.name = key.2))).map
    (fun r => r.1.quantity)).sum

/-- `ORDER BY qty_sold DESC LIMIT 1`: return a group with maximal summed
quantity (the database's tie-break order is arbitrary; this model keeps the
earlier group on ties). -/
def pickBest : List ((Int × String) × Int) → Option ((Int × String) × Int)
  | [] => none
  | g :: rest =>
    match pickBest rest with
    | none => some g
    | some b => if b.2 ≤ g.2 then some g else some b

/-- The two queries shared by both report endpoints, for a given WHERE scope
on the transactions table: `COALESCE(SUM(total_amount), 0)` and `COUNT(*)`
over the scoped transactions, then the grouped/ordered best-seller query
(`sql.ErrNoRows`, i.e. no group at all, maps to a null best seller). -/
def salesReportFor (s : Store) (scope : TransRow → Bool) : SalesReport :=
  let scopedTrans := s.transactions.filter scope
  let rows := joinedRows s scope
  let groups := (groupKeys rows).map (fun k => (k, qtyForKey rows k))
  { totalRevenue := (scopedTrans.map (fun t => t.totalAmount)).sum,
    totalTransactions := scopedTrans.length,
    bestSellingProduct :=
      (pickBest groups).map (fun g => { name := g.1.2, qtySold := g.2 }) }

/-- `transactionRepository.GetDailySalesReport`: scope is
`created_at::date = CURRENT_DATE`. -/
def getDailySalesReport (s : Store) : SalesReport :=
  salesReportFor s (fun t => decide (t.createdAt = s.today))

/-- `transactionRepository.GetSalesReportByDateRange`: scope is
`created_at::date >= $1::date AND created_at::date <= $2::date`.  If either
cast fails, the query itself errors inside the store and the repository
returns that error. -/
def getSalesReportByDateRange (startDate endDate : String) (s : Store) :
    Except RepoError SalesReport :=
  match parseDate startDate, parseDate endDate with
  | some d1, some d2 =>
    .ok (salesReportFor s
      (fun t => decide (d1 ≤ t.createdAt) && decide (t.createdAt ≤ d2)))
  | _, _ => .error (.storageError "invalid input syntax for type date")

/-- `transactionService.GetSalesReportByDateRange`: reject empty date
parameters, otherwise delegate to the repository.  The boolean component
records whether any query was issued against the store (`false` exactly when
the service returned before calling the repository). -/
def getSalesReportByDateRangeService (startDate endDate : String) (s : Store) :
    Except RepoError SalesReport × Bool :=
  if startDate = "" ∨ endDate = "" then
    (.error (.validationError "start_date and end_date are required"), false)
  else
    (getSalesReportByDateRange startDate endDate s, true)

/-- Specification-side: the detail rows belonging to scoped transactions. -/
def scopedDetails (s : Store) (scope : TransRow → Bool) : List DetailRow :=
  s.transactionDetails.filter (inScopeDetail s scope)

/-- Specification-side: summed quantity of product `pid` across the detail
rows of scoped transactions. -/
def sumQtyScoped (s : Store) (scope : TransRow → Bool) (pid : Int) : Int :=
  (((scopedDetails s scope).filter (fun d => d.productID = pid)).map
    (fun d => d.quantity)).sum

/-- Referential integrity enforced by the schema (`transaction_id INT
REFERENCES transactions(id)`, `product_id INT REFERENCES products(id)`):
every detail row joins to an existing transaction and product. -/
def detailRefsOK (s : Store) : Prop :=
  ∀ d ∈ s.transactionDetails,
    (s.transactions.find? (fun t => t.id = d.transactionID)).isSome = true ∧
    (findProduct s.products d.productID).isSome = true

instance (s : Store) : Decidable (detailRefsOK s) := by
  unfold detailRefsOK; infer_instance

/-- What a correct report for scope `scope` must satisfy (the aggregate
semantics the specification describes). -/
def reportOK (s : Store) (scope : TransRow → Bool) (r : SalesReport) : Prop :=
  r.totalRevenue = ((s.transactions.filter scope).map (fun t => t.totalAmount)).sum ∧
  r.totalTransactions = (s.transactions.filter scope).length ∧
  (r.bestSellingProduct = none ↔ scopedDetails s scope = []) ∧
  (∀ b, r.bestSellingProduct = some b →
    ∃ pid p, findProduct s.products pid = some p ∧ b.name = p.name ∧
      b.qtySold = sumQtyScoped s scope pid ∧
      ∀ pid' ∈ (scopedDetails s scope).map (fun d => d.productID),
        sumQtyScoped s scope pid' ≤ b.qtySold)

/-! ### Basic lemmas about product lookup and stock update -/

theorem findProduct_some_id {ps : List ProductRow} {pid : Int} {p : ProductRow}
    (h : findProduct ps pid = some p) : p.id = pid := by
  have := List.find?_some h
  simpa using this

theorem find?_map_of_pred (f : ProductRow → ProductRow)
    (hf : ∀ p, (f p).id = p.id) (ps : List ProductRow) (x : Int) :
    (ps.map f).find? (fun p => p.id = x) =
      (ps.find? (fun p => p.id = x)).map f := by
  induction ps with
  | nil => rfl
  | cons a t ih =>
    by_cases h : a.id = x
    · simp [List.find?_cons, hf, h]
    · simp [List.find?_cons, hf, h, ih]

theorem updateStock_id (pid qty : Int) (p : ProductRow) :
    ((fun p => if p.id = pid then { p with stock := p.stock - qty } else p) p).id
      = p.id := by
  by_cases h : p.id = pid <;> simp [h]

theorem findProduct_updateStock (ps : List ProductRow) (pid qty x : Int) :
    findProduct (updateStock ps pid qty) x =
      (findProduct ps x).map
        (fun p => if p.id = pid then { p with stock := p.stock - qty } else p) := by
  unfold findProduct updateStock
  exact find?_map_of_pred _ (updateStock_id pid qty) ps x

theorem stockOf_updateStock (ps : List ProductRow) (pid qty x : Int) :
    stockOf (updateStock ps pid qty) x =
      if x = pid then (stockOf ps x).map (fun v => v - qty) else stockOf ps x := by
  unfold stockOf
  rw [findProduct_updateStock]
  cases hfp : findProduct ps x with
  | none => simp
  | some p =>
    have hid : p.id = x := findProduct_some_id hfp
    by_cases h : x = pid
    · simp [Option.map_map, hid, h]
    · simp [Option.map_map, hid, h]

theorem priceOf_updateStock (ps : List ProductRow) (pid qty x : Int) :
    priceOf (updateStock ps pid qty) x = priceOf ps x := by
  unfold priceOf
  rw [findProduct_updateStock]
  cases hfp : findProduct ps x with
  | none => simp
  | some p =>
    by_cases h : p.id = pid <;> simp [Option.map_map, h]

theorem nameOf_updateStock (ps : List ProductRow) (pid qty x : Int) :
    nameOf (updateStock ps pid qty) x = nameOf ps x := by
  unfold nameOf
  rw [findProduct_updateStock]
  cases hfp : findProduct ps x with
  | none => simp
  | some p =>
    by_cases h : p.id = pid <;> simp [Option.map_map, h]

theorem findProduct_updateStock_isSome (ps : List ProductRow) (pid qty x : Int) :
    (findProduct (updateStock ps pid qty) x).isSome =
      (findProduct ps x).isSome := by
  rw [findProduct_updateStock]; cases findProduct ps x <;> rfl

theorem ids_updateStock (ps : List ProductRow) (pid qty : Int) :
    (updateStock ps pid qty).map (fun p => p.id) = ps.map (fun p => p.id) := by
  unfold updateStock
  rw [List.map_map]
  exact List.map_congr_left (fun p _ => updateStock_id pid qty p)

theorem optionMap_sub_sub (o : Option Int) (a b : Int) :
    (o.map (fun v => v - a)).map (fun v => v - b) =
      o.map (fun v => v - (a + b)) := by
  cases o <;> simp [Int.sub_sub]

theorem optionMap_sub_zero (o : Option Int) :
    o.map (fun v => v - (0 : Int)) = o := by
  cases o <;> simp

theorem totalQty_nil (x : Int) : totalQty [] x = 0 := rfl

theorem totalQty_cons (it : CheckoutItem) (rest : List CheckoutItem) (x : Int) :
    totalQty (it :: rest) x =
      (if it.productID = x then it.quantity else 0) + totalQty rest x := by
  unfold totalQty
  rw [List.filter_cons]
  by_cases h : it.productID = x <;> simp [h]

/-! ### The checkout loop under sufficient stock -/

theorem processItems_ok_of_sufficientStock (items : List CheckoutItem) :
    ∀ ps : List ProductRow, sufficientStock items ps = true →
    ∃ psFin tot dets, processItems items ps = .ok (psFin, tot, dets) ∧
      dets.map (fun d => (d.productID, d.productName, d.quantity, d.subtotal)) =
        items.map (fun it => (it.productID, (nameOf ps it.productID).getD "",
          it.quantity, (priceOf ps it.productID).getD 0 * it.quantity)) ∧
      tot = (dets.map (fun d => d.subtotal)).sum ∧
      ∀ x, stockOf psFin x = (stockOf ps x).map (fun v => v - totalQty items x) := by
  induction items with
  | nil =>
    intro ps _
    exact ⟨ps, 0, [], rfl, rfl, rfl,
      fun x => by rw [totalQty_nil, optionMap_sub_zero]⟩
  | cons item rest ih =>
    intro ps h
    cases hfp : findProduct ps item.productID with
    | none =>
      simp only [sufficientStock, hfp] at h
      exact absurd h (by decide)
    | some p =>
      simp only [sufficientStock, hfp, Bool.and_eq_true, decide_eq_true_eq] at h
      obtain ⟨hq, hrest⟩ := h
      have hnlt : ¬ p.stock < item.quantity := not_lt.mpr hq
      obtain ⟨psFin, tot, dets, hok, hmap, hsum, hstock⟩ :=
        ih (updateStock ps item.productID item.quantity) hrest
      refine ⟨psFin, p.price * item.quantity + tot,
        { id := 0, transactionID := 0, productID := item.productID,
          productName := p.name, quantity := item.quantity,
          subtotal := p.price * item.quantity } :: dets, ?_, ?_, ?_, ?_⟩
      · simp only [processItems, hfp, if_neg hnlt, hok]
      · rw [List.map_cons, List.map_cons, hmap]
        congr 1
        · simp [nameOf, priceOf, hfp]
        · exact List.map_congr_left (fun it _ => by
            rw [nameOf_updateStock, priceOf_updateStock])
      · rw [List.map_cons, List.sum_cons, hsum]
      · intro x
        rw [hstock x, stockOf_updateStock, totalQty_cons]
        by_cases hx : x = item.productID
        · rw [if_pos hx, if_pos hx.symm, optionMap_sub_sub]
        · rw [if_neg hx, if_neg (fun hh => hx hh.symm), zero_add]

/-! ### The checkout loop under a missing product or a stock shortfall -/

theorem findProduct_updateStock_eq_none (ps : List ProductRow) (pid qty x : Int) :
    findProduct (updateStock ps pid qty) x = none ↔ findProduct ps x = none := by
  rw [findProduct_updateStock]
  exact Option.map_eq_none'

theorem processItems_error_of_insufficient (items : List CheckoutItem) :
    ∀ ps : List ProductRow, sufficientStock items ps = false →
    ∃ e, processItems items ps = .error e ∧
      ((∃ pid, e = RepoError.productNotFound pid ∧ findProduct ps pid = none ∧
          pid ∈ items.map (fun it => it.productID)) ∨
       (∃ nm avail req, e = RepoError.insufficientStock nm avail req ∧
          avail < req ∧ req ∈ items.map (fun it => it.quantity))) := by
  induction items with
  | nil => intro ps h; simp [sufficientStock] at h
  | cons item rest ih =>
    intro ps h
    cases hfp : findProduct ps item.productID with
    | none =>
      refine ⟨.productNotFound item.productID, ?_,
        .inl ⟨item.productID, rfl, hfp, ?_⟩⟩
      · simp only [processItems, hfp]
      · simp
    | some p =>
      by_cases hst : p.stock < item.quantity
      · refine ⟨.insufficientStock p.name p.stock item.quantity, ?_,
          .inr ⟨p.name, p.stock, item.quantity, rfl, hst, ?_⟩⟩
        · simp only [processItems, hfp, if_pos hst]
        · simp
      · have hq : item.quantity ≤ p.stock := not_lt.mp hst
        have hrest : sufficientStock rest
            (updateStock ps item.productID item.quantity) = false := by
          simp only [sufficientStock, hfp, decide_eq_true hq, Bool.true_and] at h
          exact h
        obtain ⟨e, herr, hcase⟩ :=
          ih (updateStock ps item.productID item.quantity) hrest
        refine ⟨e, ?_, ?_⟩
        · simp only [processItems, hfp, if_neg hst, herr]
        · rcases hcase with ⟨pid, he, hnone, hmem⟩ | ⟨nm, avail, req, he, hlt, hmem⟩
          · exact .inl ⟨pid, he,
              (findProduct_updateStock_eq_none ps item.productID item.quantity pid).mp
                hnone,
              by simp only [List.map_cons, List.mem_cons]; exact .inr hmem⟩
          · exact .inr ⟨nm, avail, req, he, hlt,
              by simp only [List.map_cons, List.mem_cons]; exact .inr hmem⟩

/-! ### Invariants of every successful run of the checkout loop -/

theorem processItems_ok_props (items : List CheckoutItem) :
    ∀ ps psFin tot dets, processItems items ps = .ok (psFin, tot, dets) →
      tot = (dets.map (fun d => d.subtotal)).sum ∧
      dets.length = items.length ∧
      (∀ d ∈ dets, nameOf ps d.productID = some d.productName) := by
  induction items with
  | nil =>
    intro ps psFin tot dets h
    simp only [processItems, Except.ok.injEq, Prod.mk.injEq] at h
    obtain ⟨-, rfl, rfl⟩ := h
    exact ⟨rfl, rfl, fun d hd => absurd hd (List.not_mem_nil d)⟩
  | cons item rest ih =>
    intro ps psFin tot dets h
    cases hfp : findProduct ps item.productID with
    | none =>
      simp only [processItems, hfp] at h
      exact Except.noConfusion h
    | some p =>
      by_cases hst : p.stock < item.quantity
      · simp only [processItems, hfp, if_pos hst] at h
        exact Except.noConfusion h
      · cases hrec : processItems rest (updateStock ps item.productID item.quantity) with
        | error e =>
          simp only [processItems, hfp, if_neg hst, hrec] at h
          exact Except.noConfusion h
        | ok val =>
          obtain ⟨psMid, totMid, detsMid⟩ := val
          simp only [processItems, hfp, if_neg hst, hrec, Except.ok.injEq,
            Prod.mk.injEq] at h
          obtain ⟨rfl, rfl, rfl⟩ := h
          obtain ⟨hsum, hlen, hnames⟩ := ih _ _ _ _ hrec
          refine ⟨?_, ?_, ?_⟩
          · rw [List.map_cons, List.sum_cons, hsum]
          · rw [List.length_cons, List.length_cons, hlen]
          · intro d hd
            rcases List.mem_cons.mp hd with rfl | hdt
            · simp [nameOf, hfp]
            · rw [← nameOf_updateStock ps item.productID item.quantity]
              exact hnames d hdt

/-! ### Stock non-negativity -/

theorem find?_unique_of_nodup (ps : List ProductRow) (pid : Int)
    (hnd : (ps.map (fun p => p.id)).Nodup) {p : ProductRow}
    (hfp : findProduct ps pid = some p) :
    ∀ r ∈ ps, r.id = pid → r = p := by
  induction ps with
  | nil => intro r hr; cases hr
  | cons a t ih =>
    intro r hr hid
    rw [List.map_cons, List.nodup_cons] at hnd
    by_cases ha : a.id = pid
    · have hpa : p = a := by
        unfold findProduct at hfp
        rw [List.find?_cons_of_pos _ (by simpa using ha)] at hfp
        exact (Option.some.inj hfp).symm
      rcases List.mem_cons.mp hr with rfl | hrt
      · exact hpa.symm
      · exfalso
        have hm : r.id ∈ t.map (fun p => p.id) :=
          List.mem_map_of_mem (fun p => p.id) hrt
        rw [hid, ← ha] at hm
        exact hnd.1 hm
    · have hfp' : findProduct t pid = some p := by
        unfold findProduct at hfp ⊢
        rwa [List.find?_cons_of_neg _ (by simpa using ha)] at hfp
      rcases List.mem_cons.mp hr with rfl | hrt
      · exact absurd hid ha
      · exact ih hnd.2 hfp' r hrt hid

theorem updateStock_nonneg (ps : List ProductRow) (pid qty : Int)
    (hnd : (ps.map (fun p => p.id)).Nodup)
    (hnn : ∀ p ∈ ps, 0 ≤ p.stock) {p : ProductRow}
    (hfp : findProduct ps pid = some p) (hq : qty ≤ p.stock) :
    ∀ r ∈ updateStock ps pid qty, 0 ≤ r.stock := by
  intro r hr
  obtain ⟨r₀, hr₀, rfl⟩ := List.mem_map.mp hr
  by_cases h : r₀.id = pid
  · have hr₀p : r₀ = p := find?_unique_of_nodup ps pid hnd hfp r₀ hr₀ h
    subst hr₀p
    simp only [if_pos h]
    exact Int.sub_nonneg.mpr hq
  · simp only [if_neg h]
    exact hnn r₀ hr₀

theorem processItems_stocks_nonneg (items : List CheckoutItem) :
    ∀ ps psFin tot dets,
      (ps.map (fun p => p.id)).Nodup →
      (∀ p ∈ ps, 0 ≤ p.stock) →
      processItems items ps = .ok (psFin, tot, dets) →
      ∀ p ∈ psFin, 0 ≤ p.stock := by
  induction items with
  | nil =>
    intro ps psFin tot dets _ hnn h
    simp only [processItems, Except.ok.injEq, Prod.mk.injEq] at h
    obtain ⟨rfl, -, -⟩ := h
    exact hnn
  | cons item rest ih =>
    intro ps psFin tot dets hnd hnn h
    cases hfp : findProduct ps item.productID with
    | none =>
      simp only [processItems, hfp] at h
      exact Except.noConfusion h
    | some p =>
      by_cases hst : p.stock < item.quantity
      · simp only [processItems, hfp, if_pos hst] at h
        exact Except.noConfusion h
      · cases hrec : processItems rest (updateStock ps item.productID item.quantity) with
        | error e =>
          simp only [processItems, hfp, if_neg hst, hrec] at h
          exact Except.noConfusion h
        | ok val =>
          obtain ⟨psMid, totMid, detsMid⟩ := val
          simp only [processItems, hfp, if_neg hst, hrec, Except.ok.injEq,
            Prod.mk.injEq] at h
          obtain ⟨rfl, -, -⟩ := h
          refine ih _ _ _ _ ?_ ?_ hrec
          · rw [ids_updateStock]; exact hnd
          · exact updateStock_nonneg ps item.productID item.quantity hnd hnn hfp
              (not_lt.mp hst)

/-! ### The detail-insertion loop -/

theorem assignIDs_proj (tid : Int) :
    ∀ (dets : List TransactionDetail) (nid : Int),
    (assignIDs tid dets nid).map
        (fun d => (d.productID, d.productName, d.quantity, d.subtotal)) =
      dets.map (fun d => (d.productID, d.productName, d.quantity, d.subtotal))
  | [], _ => rfl
  | d :: rest, nid => by
    simp only [assignIDs, List.map_cons]
    rw [assignIDs_proj tid rest (nid + 1)]

theorem assignIDs_length (tid : Int) :
    ∀ (dets : List TransactionDetail) (nid : Int),
    (assignIDs tid dets nid).length = dets.length
  | [], _ => rfl
  | d :: rest, nid => by
    simp only [assignIDs, List.length_cons]
    rw [assignIDs_length tid rest (nid + 1)]

theorem map_of_proj_eq {α : Type} {l₁ l₂ : List TransactionDetail}
    (h : l₁.map (fun d => (d.productID, d.productName, d.quantity, d.subtotal)) =
         l₂.map (fun d => (d.productID, d.productName, d.quantity, d.subtotal)))
    (g : Int × String × Int × Int → α) :
    l₁.map (fun d => g (d.productID, d.productName, d.quantity, d.subtotal)) =
      l₂.map (fun d => g (d.productID, d.productName, d.quantity, d.subtotal)) := by
  have hmm := congrArg (List.map g) h
  rw [List.map_map, List.map_map] at hmm
  exact hmm

/-! ### Service-layer validation -/

theorem validateItems_some_of_offender (items : List CheckoutItem)
    (h : ∃ it ∈ items, it.productID ≤ 0 ∨ it.quantity ≤ 0) :
    ∃ msg, validateItems items = some (.validationError msg) := by
  induction items with
  | nil => obtain ⟨it, hit, -⟩ := h; cases hit
  | cons a rest ih =>
    by_cases hpid : a.productID ≤ 0
    · exact ⟨"invalid product ID", by simp [validateItems, if_pos hpid]⟩
    · by_cases hq : a.quantity ≤ 0
      · exact ⟨"quantity must be greater than 0",
          by simp [validateItems, if_neg hpid, if_pos hq]⟩
      · obtain ⟨it, hit, hoff⟩ := h
        rcases List.mem_cons.mp hit with rfl | hrest
        · rcases hoff with h1 | h2
          exacts [absurd h1 hpid, absurd h2 hq]
        · obtain ⟨msg, hm⟩ := ih ⟨it, hrest, hoff⟩
          exact ⟨msg, by simp [validateItems, if_neg hpid, if_neg hq, hm]⟩

/-! ### Concrete data used by the witnesses -/

/-- A sample pre-call store (products as in the specification's end-to-end
example). -/
def sampleStore : Store :=
  { products := [⟨1, "iPhone 15 Pro", 15000000, 50⟩,
                 ⟨3, "Indomie Goreng", 3000, 10⟩],
    transactions := [], transactionDetails := [],
    nextTransactionID := 1, nextDetailID := 1, today := 20240115 }

/-- The transaction returned by `checkout [⟨1, 2⟩] sampleStore`. -/
def witnessT : Transaction :=
  { id := 1, totalAmount := 30000000, createdAt := 0,
    details := [⟨1, 1, 1, "iPhone 15 Pro", 2, 30000000⟩] }

/-- The store committed by `checkout [⟨1, 2⟩] sampleStore`. -/
def witnessS : Store :=
  { products := [⟨1, "iPhone 15 Pro", 15000000, 48⟩,
                 ⟨3, "Indomie Goreng", 3000, 10⟩],
    transactions := [⟨1, 30000000, 20240115⟩],
    transactionDetails := [⟨1, 1, 1, 2, 30000000⟩],
    nextTransactionID := 2, nextDetailID := 2, today := 20240115 }

/-! ### Claim C1 -/

/-- C1: for every cart in which each entry references an existing product and
requests no more than the stock available at its turn (earlier entries of the
same cart already deducted), checkout succeeds, the returned transaction's
total_amount equals the sum of the per-entry subtotals, each detail line
records the subtotal price-at-sale-time × quantity of its entry, and every
product's stock in the committed store decreases by exactly the total
quantity the cart requests for it. -/
theorem c1_checkout_success (items : List CheckoutItem) (s : Store)
    (h : sufficientStock items s.products = true) :
    ∃ t sFin, createTransaction items s = (.ok t, sFin) ∧
      t.totalAmount = (t.details.map (fun d => d.subtotal)).sum ∧
      t.details.map (fun d => (d.productID, d.quantity, d.subtotal)) =
        items.map (fun it => (it.productID, it.quantity,
          (priceOf s.products it.productID).getD 0 * it.quantity)) ∧
      ∀ x, stockOf sFin.products x =
        (stockOf s.products x).map (fun v => v - totalQty items x) := by
  obtain ⟨psFin, tot, dets, hok, hmap, hsum, hstock⟩ :=
    processItems_ok_of_sufficientStock items s.products h
  refine ⟨{ id := s.nextTransactionID, totalAmount := tot, createdAt := 0,
            details := assignIDs s.nextTransactionID dets s.nextDetailID },
          { products := psFin,
            transactions := s.transactions ++
              [{ id := s.nextTransactionID, totalAmount := tot,
                 createdAt := s.today }],
            transactionDetails := s.transactionDetails ++
              (assignIDs s.nextTransactionID dets s.nextDetailID).map persistRow,
            nextTransactionID := s.nextTransactionID + 1,
            nextDetailID := s.nextDetailID +
              (assignIDs s.nextTransactionID dets s.nextDetailID).length,
            today := s.today }, ?_, ?_, ?_, ?_⟩
  · simp only [createTransaction, hok]
  · show tot = ((assignIDs s.nextTransactionID dets s.nextDetailID).map
      (fun d => d.subtotal)).sum
    have h1 : (assignIDs s.nextTransactionID dets s.nextDetailID).map
        (fun d => d.subtotal) = dets.map (fun d => d.subtotal) := by
      simpa using map_of_proj_eq
        (assignIDs_proj s.nextTransactionID dets s.nextDetailID)
        (fun q => q.2.2.2)
    rw [h1]; exact hsum
  · show (assignIDs s.nextTransactionID dets s.nextDetailID).map
        (fun d => (d.productID, d.quantity, d.subtotal)) =
      items.map (fun it => (it.productID, it.quantity,
        (priceOf s.products it.productID).getD 0 * it.quantity))
    have h3 : (assignIDs s.nextTransactionID dets s.nextDetailID).map
        (fun d => (d.productID, d.quantity, d.subtotal)) =
        dets.map (fun d => (d.productID, d.quantity, d.subtotal)) := by
      simpa using map_of_proj_eq
        (assignIDs_proj s.nextTransactionID dets s.nextDetailID)
        (fun q => (q.1, q.2.2.1, q.2.2.2))
    have h4 : dets.map (fun d => (d.productID, d.quantity, d.subtotal)) =
        items.map (fun it => (it.productID, it.quantity,
          (priceOf s.products it.productID).getD 0 * it.quantity)) := by
      have h2 := congrArg (List.map (fun q : Int × String × Int × Int =>
        (q.1, q.2.2.1, q.2.2.2))) hmap
      rw [List.map_map, List.map_map] at h2
      simpa using h2
    rw [h3, h4]
  · exact hstock

/-- Witness for C1: the specification's end-to-end cart on the sample store. -/
theorem c1_witness :
    sufficientStock [⟨1, 2⟩, ⟨3, 5⟩] sampleStore.products = true ∧
    (∃ t sFin, createTransaction [⟨1, 2⟩, ⟨3, 5⟩] sampleStore = (.ok t, sFin) ∧
      t.totalAmount = (t.details.map (fun d => d.subtotal)).sum ∧
      t.details.map (fun d => (d.productID, d.quantity, d.subtotal)) =
        [⟨1, 2⟩, ⟨3, 5⟩].map (fun it : CheckoutItem => (it.productID, it.quantity,
          (priceOf sampleStore.products it.productID).getD 0 * it.quantity)) ∧
      ∀ x, stockOf sFin.products x =
        (stockOf sampleStore.products x).map
          (fun v => v - totalQty [⟨1, 2⟩, ⟨3, 5⟩] x)) :=
  ⟨by decide, c1_checkout_success [⟨1, 2⟩, ⟨3, 5⟩] sampleStore (by decide)⟩

/-! ### Claim C2 -/

/-- C2: whenever some entry references a nonexistent product or requests more
than the stock available at its turn, checkout fails with the corresponding
error — `productNotFound` with the offending id for an absent product, or
`insufficientStock` carrying available < requested — and the store comes back
exactly as before the call: no stock changes and no transaction or detail row
is persisted, regardless of earlier entries that would have succeeded. -/
theorem c2_checkout_failure_rolls_back (items : List CheckoutItem) (s : Store)
    (h : sufficientStock items s.products = false) :
    ∃ e, createTransaction items s = (.error e, s) ∧
      ((∃ pid, e = RepoError.productNotFound pid ∧
          findProduct s.products pid = none ∧
          pid ∈ items.map (fun it => it.productID)) ∨
       (∃ nm avail req, e = RepoError.insufficientStock nm avail req ∧
          avail < req ∧ req ∈ items.map (fun it => it.quantity))) := by
  obtain ⟨e, herr, hcase⟩ := processItems_error_of_insufficient items s.products h
  exact ⟨e, by simp only [createTransaction, herr], hcase⟩

/-- Witness for C2: a cart whose second entry requests more than the stock
remaining after its first entry. -/
theorem c2_witness :
    sufficientStock [⟨3, 6⟩, ⟨3, 5⟩] sampleStore.products = false ∧
    (∃ e, createTransaction [⟨3, 6⟩, ⟨3, 5⟩] sampleStore = (.error e, sampleStore) ∧
      ((∃ pid, e = RepoError.productNotFound pid ∧
          findProduct sampleStore.products pid = none ∧
          pid ∈ [⟨3, 6⟩, ⟨3, 5⟩].map (fun it : CheckoutItem => it.productID)) ∨
       (∃ nm avail req, e = RepoError.insufficientStock nm avail req ∧
          avail < req ∧
          req ∈ [⟨3, 6⟩, ⟨3, 5⟩].map (fun it : CheckoutItem => it.quantity)))) :=
  ⟨by decide, c2_checkout_failure_rolls_back [⟨3, 6⟩, ⟨3, 5⟩] sampleStore (by decide)⟩

/-! ### Claim C3 -/

/-- C3: duplicate product_id entries in one cart are not merged — entries are
validated and applied in input order, and a later entry's stock check sees
the stock already decremented by earlier entries.  For a cart with two
entries for the same product where the first alone fits the stock but the
combined quantity does not, checkout fails with `insufficientStock` whose
available field is the already-decremented stock, and the store is left
unchanged. -/
theorem c3_duplicate_entries_not_merged (pid q1 q2 : Int) (s : Store)
    (p : ProductRow) (hfp : findProduct s.products pid = some p)
    (h1 : q1 ≤ p.stock) (h2 : p.stock < q1 + q2) :
    createTransaction [⟨pid, q1⟩, ⟨pid, q2⟩] s =
      (.error (.insufficientStock p.name (p.stock - q1) q2), s) := by
  have hid : p.id = pid := findProduct_some_id hfp
  have hnlt : ¬ p.stock < q1 := not_lt.mpr h1
  have hfp2 : findProduct (updateStock s.products pid q1) pid =
      some { p with stock := p.stock - q1 } := by
    rw [findProduct_updateStock, hfp]
    simp [hid]
  have hlt2 : p.stock - q1 < q2 := by omega
  simp only [createTransaction, processItems, hfp, if_neg hnlt, hfp2]
  simp [hlt2]

/-- Witness for C3: stock 10, first entry 6, second entry 5; the failure
reports available 4 (= 10 − 6). -/
theorem c3_witness :
    findProduct sampleStore.products 3 = some ⟨3, "Indomie Goreng", 3000, 10⟩ ∧
    (6 : Int) ≤ 10 ∧ (10 : Int) < 6 + 5 ∧
    createTransaction [⟨3, 6⟩, ⟨3, 5⟩] sampleStore =
      (.error (.insufficientStock "Indomie Goreng" 4 5), sampleStore) :=
  ⟨by decide, by decide, by decide,
    c3_duplicate_entries_not_merged 3 6 5 sampleStore
      ⟨3, "Indomie Goreng", 3000, 10⟩ (by decide) (by decide) (by decide)⟩

/-! ### Claim C4 -/

/-- C4: if every product's stock is non-negative before a checkout call, then
after the call — successful, failed in the repository, or rejected by
validation — every product's stock is still non-negative. -/
theorem c4_stock_nonneg (items : List CheckoutItem) (s : Store)
    (hnd : (s.products.map (fun p => p.id)).Nodup)
    (hnn : ∀ p ∈ s.products, 0 ≤ p.stock) :
    ∀ p ∈ (checkout items s).2.products, 0 ≤ p.stock := by
  unfold checkout
  by_cases hempty : items = []
  · rw [if_pos hempty]; exact hnn
  · rw [if_neg hempty]
    cases hv : validateItems items with
    | some e => exact hnn
    | none =>
      cases hpi : processItems items s.products with
      | error e =>
        simp only [createTransaction, hpi]
        exact hnn
      | ok val =>
        obtain ⟨psFin, tot, dets⟩ := val
        simp only [createTransaction, hpi]
        exact processItems_stocks_nonneg items s.products psFin tot dets hnd hnn hpi

/-- Witness for C4. -/
theorem c4_witness :
    (sampleStore.products.map (fun p => p.id)).Nodup ∧
    (∀ p ∈ sampleStore.products, 0 ≤ p.stock) ∧
    ∀ p ∈ (checkout [⟨1, 2⟩] sampleStore).2.products, 0 ≤ p.stock :=
  ⟨by decide, by decide,
    c4_stock_nonneg [⟨1, 2⟩] sampleStore (by decide) (by decide)⟩

/-! ### Claim C5 -/

/-- C5: every transaction created by checkout has total_amount equal to the
sum of its detail lines' subtotals and at least one detail line (empty carts
are rejected before persistence); the persisted transaction row and detail
rows match the returned value. -/
theorem c5_transaction_invariants (items : List CheckoutItem) (s : Store)
    (t : Transaction) (sFin : Store)
    (h : checkout items s = (.ok t, sFin)) :
    t.totalAmount = (t.details.map (fun d => d.subtotal)).sum ∧
    t.details ≠ [] ∧
    sFin.transactions = s.transactions ++
      [{ id := t.id, totalAmount := t.totalAmount, createdAt := s.today }] ∧
    sFin.transactionDetails = s.transactionDetails ++ t.details.map persistRow := by
  unfold checkout at h
  by_cases hempty : items = []
  · rw [if_pos hempty] at h
    exact Except.noConfusion (congrArg Prod.fst h)
  · rw [if_neg hempty] at h
    cases hv : validateItems items with
    | some e =>
      rw [hv] at h
      exact Except.noConfusion (congrArg Prod.fst h)
    | none =>
      rw [hv] at h
      cases hpi : processItems items s.products with
      | error e =>
        simp only [createTransaction, hpi] at h
        exact Except.noConfusion (congrArg Prod.fst h)
      | ok val =>
        obtain ⟨psFin, tot, dets⟩ := val
        simp only [createTransaction, hpi, Prod.mk.injEq, Except.ok.injEq] at h
        obtain ⟨rfl, rfl⟩ := h
        obtain ⟨hsum, hlen, -⟩ := processItems_ok_props items s.products _ _ _ hpi
        refine ⟨?_, ?_, rfl, rfl⟩
        · show tot = ((assignIDs s.nextTransactionID dets s.nextDetailID).map
            (fun d => d.subtotal)).sum
          have h1 : (assignIDs s.nextTransactionID dets s.nextDetailID).map
              (fun d => d.subtotal) = dets.map (fun d => d.subtotal) := by
            simpa using map_of_proj_eq
              (assignIDs_proj s.nextTransactionID dets s.nextDetailID)
              (fun q => q.2.2.2)
          rw [h1]; exact hsum
        · show assignIDs s.nextTransactionID dets s.nextDetailID ≠ []
          intro hcon
          have hzero : dets.length = 0 := by
            rw [← assignIDs_length s.nextTransactionID dets s.nextDetailID, hcon]
            rfl
          rw [hlen] at hzero
          exact hempty (List.length_eq_zero.mp hzero)

/-- Witness for C5. -/
theorem c5_witness :
    checkout [⟨1, 2⟩] sampleStore = (.ok witnessT, witnessS) ∧
    (witnessT.totalAmount = (witnessT.details.map (fun d => d.subtotal)).sum ∧
     witnessT.details ≠ [] ∧
     witnessS.transactions = sampleStore.transactions ++
       [{ id := witnessT.id, totalAmount := witnessT.totalAmount,
          createdAt := sampleStore.today }] ∧
     witnessS.transactionDetails = sampleStore.transactionDetails ++
       witnessT.details.map persistRow) :=
  ⟨by decide,
    c5_transaction_invariants [⟨1, 2⟩] sampleStore witnessT witnessS (by decide)⟩

/-! ### Claim C6 -/

/-- C6: an empty cart, or a cart containing an entry with product_id ≤ 0 or
quantity ≤ 0, is rejected by the service with a validation error before any
store access: the outcome is the same for every store, and the store is
returned unchanged. -/
theorem c6_validation_before_store (items : List CheckoutItem)
    (h : items = [] ∨ ∃ it ∈ items, it.productID ≤ 0 ∨ it.quantity ≤ 0) :
    ∃ msg, ∀ s : Store, checkout items s = (.error (.validationError msg), s) := by
  by_cases hempty : items = []
  · exact ⟨"checkout items cannot be empty", fun s => by simp [checkout, hempty]⟩
  · rcases h with rfl | hoff
    · exact absurd rfl hempty
    · obtain ⟨msg, hm⟩ := validateItems_some_of_offender items hoff
      exact ⟨msg, fun s => by simp [checkout, if_neg hempty, hm]⟩

/-- Witness for C6: an entry with non-positive product id. -/
theorem c6_witness :
    (([⟨-1, 5⟩] : List CheckoutItem) = [] ∨
      ∃ it ∈ ([⟨-1, 5⟩] : List CheckoutItem),
        it.productID ≤ 0 ∨ it.quantity ≤ 0) ∧
    ∃ msg, ∀ s : Store,
      checkout [⟨-1, 5⟩] s = (.error (.validationError msg), s) :=
  ⟨Or.inr ⟨⟨-1, 5⟩, by decide, Or.inl (by decide)⟩,
    c6_validation_before_store [⟨-1, 5⟩]
      (Or.inr ⟨⟨-1, 5⟩, by decide, Or.inl (by decide)⟩)⟩

/-! ### Claim C9 -/

/-- A store identical to `storeBeta` except for the product's name. -/
def storeAlpha : Store :=
  { products := [⟨1, "Alpha", 100, 10⟩], transactions := [],
    transactionDetails := [],
    nextTransactionID := 1, nextDetailID := 1, today := 20240115 }

/-- A store identical to `storeAlpha` except for the product's name. -/
def storeBeta : Store :=
  { products := [⟨1, "Beta", 100, 10⟩], transactions := [],
    transactionDetails := [],
    nextTransactionID := 1, nextDetailID := 1, today := 20240115 }

/-- Counterexample to C9: the `transaction_details` INSERT writes only
(transaction_id, product_id, quantity, subtotal) — the schema has no
product_name column — so two checkouts whose sale-time product names differ
("Alpha" vs "Beta", both returned in the in-memory transaction) persist
identical detail rows: the store records no name snapshot. -/
theorem c9_counterexample :
    (createTransaction [⟨1, 2⟩] storeAlpha).2.transactionDetails =
      (createTransaction [⟨1, 2⟩] storeBeta).2.transactionDetails ∧
    (∃ tA sA, createTransaction [⟨1, 2⟩] storeAlpha = (.ok tA, sA) ∧
      tA.details.map (fun d => d.productName) = ["Alpha"]) ∧
    (∃ tB sB, createTransaction [⟨1, 2⟩] storeBeta = (.ok tB, sB) ∧
      tB.details.map (fun d => d.productName) = ["Beta"]) :=
  ⟨by decide,
    ⟨⟨1, 200, 0, [⟨1, 1, 1, "Alpha", 2, 200⟩]⟩,
      ⟨[⟨1, "Alpha", 100, 8⟩], [⟨1, 200, 20240115⟩], [⟨1, 1, 1, 2, 200⟩], 2, 2,
        20240115⟩, by decide, by decide⟩,
    ⟨⟨1, 200, 0, [⟨1, 1, 1, "Beta", 2, 200⟩]⟩,
      ⟨[⟨1, "Beta", 100, 8⟩], [⟨1, 200, 20240115⟩], [⟨1, 1, 1, 2, 200⟩], 2, 2,
        20240115⟩, by decide, by decide⟩⟩

/-- C9 as amended: the detail lines of the *returned* transaction record
product_name as a snapshot of the product's name at sale time, alongside
product_id, quantity and subtotal; the rows persisted to the
transaction_details table record only id, transaction_id, product_id,
quantity and subtotal (the schema has no product_name column), matching the
returned details on those fields. -/
theorem c9_returned_name_snapshot (items : List CheckoutItem) (s : Store)
    (t : Transaction) (sFin : Store)
    (h : createTransaction items s = (.ok t, sFin)) :
    (∀ d ∈ t.details, nameOf s.products d.productID = some d.productName) ∧
    sFin.transactionDetails = s.transactionDetails ++ t.details.map persistRow := by
  cases hpi : processItems items s.products with
  | error e =>
    simp only [createTransaction, hpi] at h
    exact Except.noConfusion (congrArg Prod.fst h)
  | ok val =>
    obtain ⟨psFin, tot, dets⟩ := val
    simp only [createTransaction, hpi, Prod.mk.injEq, Except.ok.injEq] at h
    obtain ⟨rfl, rfl⟩ := h
    obtain ⟨-, -, hnames⟩ := processItems_ok_props items s.products _ _ _ hpi
    refine ⟨?_, rfl⟩
    intro d hd
    have hmem : (d.productID, d.productName, d.quantity, d.subtotal) ∈
        dets.map (fun d => (d.productID, d.productName, d.quantity, d.subtotal)) := by
      rw [← assignIDs_proj s.nextTransactionID dets s.nextDetailID]
      exact List.mem_map_of_mem _ hd
    obtain ⟨d₀, hd₀, heq⟩ := List.mem_map.mp hmem
    simp only [Prod.mk.injEq] at heq
    have hn := hnames d₀ hd₀
    rw [heq.1, heq.2.1] at hn
    exact hn

/-- Witness for the amended C9. -/
theorem c9_witness :
    createTransaction [⟨1, 2⟩] sampleStore = (.ok witnessT, witnessS) ∧
    ((∀ d ∈ witnessT.details,
        nameOf sampleStore.products d.productID = some d.productName) ∧
      witnessS.transactionDetails = sampleStore.transactionDetails ++
        witnessT.details.map persistRow) :=
  ⟨by decide,
    c9_returned_name_snapshot [⟨1, 2⟩] sampleStore witnessT witnessS (by decide)⟩

/-! ### Claim C10 -/

/-- C10: for every successful checkout, the returned transaction's
created_at field is the zero timestamp, while the persisted transaction row
carries the database-assigned creation date: the stored creation time is
never read back into the returned value. -/
theorem c10_created_at_not_read_back (items : List CheckoutItem) (s : Store)
    (t : Transaction) (sFin : Store)
    (h : createTransaction items s = (.ok t, sFin)) :
    t.createdAt = 0 ∧
    sFin.transactions = s.transactions ++
      [{ id := t.id, totalAmount := t.totalAmount, createdAt := s.today }] := by
  cases hpi : processItems items s.products with
  | error e =>
    simp only [createTransaction, hpi] at h
    exact Except.noConfusion (congrArg Prod.fst h)
  | ok val =>
    obtain ⟨psFin, tot, dets⟩ := val
    simp only [createTransaction, hpi, Prod.mk.injEq, Except.ok.injEq] at h
    obtain ⟨rfl, rfl⟩ := h
    exact ⟨rfl, rfl⟩

/-- Witness for C10: the store's current date 20240115 is persisted with the
transaction row, while the returned transaction carries created_at 0. -/
theorem c10_witness :
    createTransaction [⟨1, 2⟩] sampleStore = (.ok witnessT, witnessS) ∧
    (witnessT.createdAt = 0 ∧
      witnessS.transactions = sampleStore.transactions ++
        [{ id := witnessT.id, totalAmount := witnessT.totalAmount,
           createdAt := sampleStore.today }]) :=
  ⟨by decide,
    c10_created_at_not_read_back [⟨1, 2⟩] sampleStore witnessT witnessS (by decide)⟩

/-! ### Report-engine lemmas -/

theorem pickBest_eq_none_iff (l : List ((Int × String) × Int)) :
    pickBest l = none ↔ l = [] := by
  induction l with
  | nil => simp [pickBest]
  | cons g rest ih =>
    simp only [pickBest]
    cases hp : pickBest rest with
    | none => simp
    | some b =>
      by_cases hle : b.2 ≤ g.2
      · simp [if_pos hle]
      · simp [if_neg hle]

theorem pickBest_spec (l : List ((Int × String) × Int)) :
    ∀ b, pickBest l = some b → b ∈ l ∧ ∀ x ∈ l, x.2 ≤ b.2 := by
  induction l with
  | nil => intro b h; cases h
  | cons g rest ih =>
    intro b h
    cases hp : pickBest rest with
    | none =>
      simp only [pickBest, hp] at h
      have hrest : rest = [] := (pickBest_eq_none_iff rest).mp hp
      subst hrest
      have hb := Option.some.inj h
      subst hb
      refine ⟨List.mem_cons_self g [], ?_⟩
      intro x hx
      rcases List.mem_cons.mp hx with rfl | hx'
      · exact le_refl _
      · cases hx'
    | some b' =>
      simp only [pickBest, hp] at h
      obtain ⟨hmem, hmax⟩ := ih b' hp
      by_cases hle : b'.2 ≤ g.2
      · rw [if_pos hle] at h
        have hb := Option.some.inj h
        subst hb
        refine ⟨List.mem_cons_self g rest, ?_⟩
        intro x hx
        rcases List.mem_cons.mp hx with rfl | hx'
        · exact le_refl _
        · exact le_trans (hmax x hx') hle
      · rw [if_neg hle] at h
        have hb := Option.some.inj h
        subst hb
        refine ⟨List.mem_cons_of_mem g hmem, ?_⟩
        intro x hx
        rcases List.mem_cons.mp hx with rfl | hx'
        · exact le_of_lt (not_le.mp hle)
        · exact hmax x hx'

theorem mem_joinedRows (s : Store) (scope : TransRow → Bool)
    (d : DetailRow) (p : ProductRow) :
    (d, p) ∈ joinedRows s scope ↔
      d ∈ s.transactionDetails ∧ inScopeDetail s scope d = true ∧
      findProduct s.products d.productID = some p := by
  unfold joinedRows
  rw [List.mem_filterMap]
  constructor
  · rintro ⟨d₀, hd₀, hf⟩
    by_cases hin : inScopeDetail s scope d₀
    · rw [if_pos hin] at hf
      obtain ⟨p₀, hp₀, hpair⟩ := Option.map_eq_some'.mp hf
      simp only [Prod.mk.injEq] at hpair
      obtain ⟨rfl, rfl⟩ := hpair
      exact ⟨hd₀, hin, hp₀⟩
    · rw [if_neg hin] at hf
      cases hf
  · rintro ⟨hd, hin, hp⟩
    refine ⟨d, hd, ?_⟩
    rw [if_pos hin, hp]
    rfl

theorem joinedRows_eq_nil_iff (s : Store) (scope : TransRow → Bool)
    (hfk : detailRefsOK s) :
    joinedRows s scope = [] ↔ scopedDetails s scope = [] := by
  constructor
  · intro hj
    rw [List.eq_nil_iff_forall_not_mem] at hj ⊢
    intro d hd
    have hd' := List.mem_filter.mp hd
    obtain ⟨-, hps⟩ := hfk d hd'.1
    obtain ⟨p, hp⟩ := Option.isSome_iff_exists.mp hps
    exact hj (d, p) ((mem_joinedRows s scope d p).mpr ⟨hd'.1, hd'.2, hp⟩)
  · intro hs
    rw [List.eq_nil_iff_forall_not_mem] at hs ⊢
    rintro ⟨d, p⟩ hdp
    obtain ⟨hd, hin, -⟩ := (mem_joinedRows s scope d p).mp hdp
    exact hs d (List.mem_filter.mpr ⟨hd, hin⟩)

theorem filterQty_aux (s : Store) (scope : TransRow → Bool)
    (pid : Int) (p : ProductRow) (hp : findProduct s.products pid = some p) :
    ∀ l : List DetailRow,
    ((l.filterMap (fun d =>
        if inScopeDetail s scope d then
          (findProduct s.products d.productID).map (fun q => (d, q))
        else none)).filter
      (fun r => decide (r.2.id = pid) && decide (r.2.name = p.name))).map
        (fun r => r.1.quantity) =
      ((l.filter (inScopeDetail s scope)).filter
        (fun d => d.productID = pid)).map (fun d => d.quantity) := by
  intro l
  induction l with
  | nil => rfl
  | cons d t ih =>
    rw [List.filterMap_cons, List.filter_cons]
    by_cases hin : inScopeDetail s scope d
    · rw [if_pos hin, if_pos hin]
      cases hfd : findProduct s.products d.productID with
      | none =>
        have hdp : ¬ d.productID = pid := by
          intro hcon
          rw [hcon, hp] at hfd
          cases hfd
        simp only [Option.map_none', List.filter_cons]
        rw [if_neg (by simpa using hdp)]
        exact ih
      | some pr =>
        have hprid : pr.id = d.productID := findProduct_some_id hfd
        simp only [Option.map_some', List.filter_cons]
        by_cases hdp : d.productID = pid
        · have hpr : pr = p := by
            rw [hdp, hp] at hfd
            exact (Option.some.inj hfd).symm
          subst hpr
          rw [if_pos (by simp [hprid, hdp]), if_pos (by simpa using hdp),
            List.map_cons, List.map_cons, ih]
        · have hcond : ¬ (pr.id = pid) := by rw [hprid]; exact hdp
          rw [if_neg (by simp [hcond]), if_neg (by simpa using hdp)]
          exact ih
    · rw [if_neg hin, if_neg hin]
      exact ih

theorem qtyForKey_eq_sumQtyScoped (s : Store) (scope : TransRow → Bool)
    (pid : Int) (p : ProductRow) (hp : findProduct s.products pid = some p) :
    qtyForKey (joinedRows s scope) (pid, p.name) = sumQtyScoped s scope pid := by
  unfold qtyForKey sumQtyScoped scopedDetails joinedRows
  exact congrArg List.sum (filterQty_aux s scope pid p hp s.transactionDetails)

theorem salesReportFor_ok (s : Store) (scope : TransRow → Bool)
    (hfk : detailRefsOK s) :
    reportOK s scope (salesReportFor s scope) := by
  refine ⟨rfl, rfl, ?_, ?_⟩
  · have hbsp : (salesReportFor s scope).bestSellingProduct =
        (pickBest ((groupKeys (joinedRows s scope)).map
          (fun k => (k, qtyForKey (joinedRows s scope) k)))).map
          (fun g => ({ name := g.1.2, qtySold := g.2 } : BestSellingProduct)) := rfl
    rw [hbsp]
    rw [Option.map_eq_none', pickBest_eq_none_iff, List.map_eq_nil_iff]
    simp only [groupKeys, List.dedup_eq_nil, List.map_eq_nil_iff]
    exact joinedRows_eq_nil_iff s scope hfk
  · intro b hb
    have hbsp : (salesReportFor s scope).bestSellingProduct =
        (pickBest ((groupKeys (joinedRows s scope)).map
          (fun k => (k, qtyForKey (joinedRows s scope) k)))).map
          (fun g => ({ name := g.1.2, qtySold := g.2 } : BestSellingProduct)) := rfl
    rw [hbsp] at hb
    obtain ⟨g, hpick, hg⟩ := Option.map_eq_some'.mp hb
    obtain ⟨hgmem, hgmax⟩ := pickBest_spec _ g hpick
    obtain ⟨key, hkey, hkeq⟩ := List.mem_map.mp hgmem
    simp only [groupKeys, List.mem_dedup, List.mem_map] at hkey
    obtain ⟨r, hr, hrkey⟩ := hkey
    obtain ⟨hrd, hrin, hrfp⟩ := (mem_joinedRows s scope r.1 r.2).mp hr
    have hrid : r.2.id = r.1.productID := findProduct_some_id hrfp
    have hfp' : findProduct s.products r.2.id = some r.2 := by
      rw [hrid]; exact hrfp
    subst hg
    subst hkeq
    subst hrkey
    refine ⟨r.2.id, r.2, hfp', rfl, ?_, ?_⟩
    · exact qtyForKey_eq_sumQtyScoped s scope r.2.id r.2 hfp'
    · intro pid' hpid'
      obtain ⟨d, hd, rfl⟩ := List.mem_map.mp hpid'
      have hdm := List.mem_filter.mp hd
      obtain ⟨-, hps⟩ := hfk d hdm.1
      obtain ⟨p', hp'⟩ := Option.isSome_iff_exists.mp hps
      have hp'id : p'.id = d.productID := findProduct_some_id hp'
      have hrow : (d, p') ∈ joinedRows s scope :=
        (mem_joinedRows s scope d p').mpr ⟨hdm.1, hdm.2, hp'⟩
      have hkey' : (p'.id, p'.name) ∈ groupKeys (joinedRows s scope) := by
        simp only [groupKeys, List.mem_dedup]
        exact List.mem_map_of_mem _ hrow
      have hgrp := List.mem_map_of_mem
        (fun k => (k, qtyForKey (joinedRows s scope) k)) hkey'
      have hle := hgmax _ hgrp
      have heq : qtyForKey (joinedRows s scope) (p'.id, p'.name) =
          sumQtyScoped s scope p'.id :=
        qtyForKey_eq_sumQtyScoped s scope p'.id p' (by rw [hp'id]; exact hp')
      rw [← hp'id, ← heq]
      exact hle

/-! ### Claim C7 -/

/-- C7: both reports compute total_revenue as the sum of total_amount over
the scoped transactions (0 when none), total_transactions as their count
(0 when none), and a best-selling product that attains the maximum summed
quantity over the detail lines of scoped transactions, absent exactly when no
detail line is in scope; the range scope is every transaction whose
created_at date lies inclusively between the two parsed dates, and an empty
scope yields a report rather than an error.  The referential-integrity
hypothesis is the schema's foreign keys. -/
theorem c7_report_aggregates (s : Store) (d1str d2str : String) (d1 d2 : Int)
    (hfk : detailRefsOK s)
    (hp1 : parseDate d1str = some d1) (hp2 : parseDate d2str = some d2) :
    reportOK s (fun t => decide (t.createdAt = s.today)) (getDailySalesReport s) ∧
    getSalesReportByDateRange d1str d2str s =
      .ok (salesReportFor s
        (fun t => decide (d1 ≤ t.createdAt) && decide (t.createdAt ≤ d2))) ∧
    reportOK s (fun t => decide (d1 ≤ t.createdAt) && decide (t.createdAt ≤ d2))
      (salesReportFor s
        (fun t => decide (d1 ≤ t.createdAt) && decide (t.createdAt ≤ d2))) := by
  refine ⟨salesReportFor_ok s _ hfk, ?_, salesReportFor_ok s _ hfk⟩
  simp only [getSalesReportByDateRange, hp1, hp2]

/-- Witness for C7: the committed store of the sample checkout. -/
theorem c7_witness :
    detailRefsOK witnessS ∧
    parseDate "2024-01-01" = some 20240101 ∧
    parseDate "2024-12-31" = some 20241231 ∧
    (reportOK witnessS (fun t => decide (t.createdAt = witnessS.today))
        (getDailySalesReport witnessS) ∧
      getSalesReportByDateRange "2024-01-01" "2024-12-31" witnessS =
        .ok (salesReportFor witnessS (fun t =>
          decide (20240101 ≤ t.createdAt) && decide (t.createdAt ≤ 20241231))) ∧
      reportOK witnessS (fun t =>
          decide (20240101 ≤ t.createdAt) && decide (t.createdAt ≤ 20241231))
        (salesReportFor witnessS (fun t =>
          decide (20240101 ≤ t.createdAt) && decide (t.createdAt ≤ 20241231)))) :=
  ⟨by decide, by decide, by decide,
    c7_report_aggregates witnessS "2024-01-01" "2024-12-31" 20240101 20241231
      (by decide) (by decide) (by decide)⟩

/-! ### Claim C8 -/

/-- Counterexample to C8: a range-report call with a non-empty start date the
store cannot parse as a calendar date is not rejected by the service — the
repository is invoked and the query is executed against the store (second
component `true`), failing there with a date-cast storage error rather than
the service's required-parameters validation error. -/
theorem c8_counterexample :
    (getSalesReportByDateRangeService "not-a-date" "2024-01-02" sampleStore).2
      = true ∧
    (getSalesReportByDateRangeService "not-a-date" "2024-01-02" sampleStore).1
      = .error (.storageError "invalid input syntax for type date") := by
  constructor <;> decide

/-- C8 as amended: a missing (empty) start or end date fails with the
service's required-parameters validation error before any store query is
issued; a non-empty date that does not parse as a calendar date is passed
through to the repository, whose query executes against the store and fails
there with a date-cast storage error.  In both cases no report is produced. -/
theorem c8_range_param_errors (d1 d2 : String) (s : Store) :
    (d1 = "" ∨ d2 = "" →
      getSalesReportByDateRangeService d1 d2 s =
        (.error (.validationError "start_date and end_date are required"),
          false)) ∧
    (d1 ≠ "" → d2 ≠ "" → (parseDate d1 = none ∨ parseDate d2 = none) →
      getSalesReportByDateRangeService d1 d2 s =
        (.error (.storageError "invalid input syntax for type date"), true)) := by
  constructor
  · intro h
    simp only [getSalesReportByDateRangeService, if_pos h]
  · intro h1 h2 hpar
    have hcond : ¬ (d1 = "" ∨ d2 = "") := by
      rintro (h | h)
      exacts [h1 h, h2 h]
    simp only [getSalesReportByDateRangeService, if_neg hcond]
    cases hq1 : parseDate d1 with
    | none => simp only [getSalesReportByDateRange, hq1]
    | some a =>
      cases hq2 : parseDate d2 with
      | none => simp only [getSalesReportByDateRange, hq1, hq2]
      | some b =>
        rcases hpar with h | h
        · rw [hq1] at h; cases h
        · rw [hq2] at h; cases h

/-- Witness for the amended C8: both failure modes at concrete inputs. -/
theorem c8_witness :
    getSalesReportByDateRangeService "" "2024-01-02" sampleStore =
      (.error (.validationError "start_date and end_date are required"),
        false) ∧
    getSalesReportByDateRangeService "x" "2024-01-02" sampleStore =
      (.error (.storageError "invalid input syntax for type date"), true) :=
  ⟨(c8_range_param_errors "" "2024-01-02" sampleStore).1 (Or.inl rfl),
    (c8_range_param_errors "x" "2024-01-02" sampleStore).2
      (by decide) (by decide) (Or.inl (by decide))⟩

end RetailCore
